import Mathlib

/-!
Verification of the sillybot market-trading core.

This file gives a shallow embedding of the repository's core functions and
proves (or refutes) a fixed list of properties about them.  Machine numbers
of the source (JavaScript numbers holding integers) are modelled as `Int`
or `Nat`; fractional arithmetic (trade fractions, averages) is modelled
exactly over `ℚ`; the standard deviation, which takes a square root, lives
in `ℝ`.  Remote calls and the clock are modelled by passing their observed
values explicitly.
-/

/- ### request.ts — rate tracker and transport classification -/

/--
Model of `getRequestsInLastMinute` (request.ts).  The mutable module-level
array `previousRequestTimestamps` and `Date.now()` are passed explicitly;
the function returns the overwritten array together with the reported
count.  The filter keeps exactly the elements satisfying the source's
predicate `timestamp < oneMinuteAgo`.
-/
def getRequestsInLastMinute (nowMs : Int) (previousRequestTimestamps : List Int) :
    List Int × Nat :=
  let oneMinuteAgo : Int := nowMs - 60 * 1000
  let filtered := previousRequestTimestamps.filter (fun timestamp => decide (timestamp < oneMinuteAgo))
  (filtered, filtered.length)

/-- Observable behaviour of one remote call, as seen by `sendRequest`. -/
structure RemoteBehavior where
  /-- `fetch` resolved (no network failure). -/
  networkOk : Bool
  /-- HTTP status of the response (meaningful when `networkOk`). -/
  status : Nat
  /-- the response carried the header `content-length: 0` (body skipped). -/
  contentLengthZero : Bool
  /-- `response.json()` succeeded (meaningful when the body is read). -/
  bodyParses : Bool
deriving DecidableEq, Repr

/-- The three ways `sendRequest` can conclude. -/
inductive SendOutcome where
  /-- the call returned a body normally -/
  | ok : SendOutcome
  /-- a `RateLimitError` was thrown -/
  | rateLimitError : SendOutcome
  /-- a plain `RequestError` was thrown -/
  | requestError : SendOutcome
deriving DecidableEq, Repr

/--
Model of `sendRequest` (request.ts): network failure throws `RequestError`;
then the body is parsed (skipped when `content-length` is `0`), a parse
failure throwing `RequestError`; only then is `response.ok` consulted, a
non-2xx status throwing `RateLimitError` when the status is 429 and
`RequestError` otherwise.
-/
def sendRequest (r : RemoteBehavior) : SendOutcome :=
  if r.networkOk = false then .requestError
  else if r.contentLengthZero = false ∧ r.bodyParses = false then .requestError
  else if 200 ≤ r.status ∧ r.status ≤ 299 then .ok
  else if r.status = 429 then .rateLimitError
  else .requestError

/- ### strategy parameters and threshold calculator (strategy-smart.ts) -/

/-- standard deviation multiplier for setting buy/sell thresholds -/
def K_FACTOR : ℚ := 1

/-- fixed threshold difference used when the standard deviation is near zero -/
def MIN_STD_DEV_THRESHOLD_DIFF : Int := 5

/-- minimum number of beans to always keep in the wallet -/
def MINIMUM_BEAN_RESERVE : Int := 180

/-- minimum number of shares to always keep -/
def MINIMUM_SHARE_RESERVE : Int := 3

/-- fraction of affordable beans or sellable shares to trade in one cycle -/
def TRADE_FRACTION : ℚ := 75 / 100

/-- Model of `clamp` (strategy-smart.ts): `Math.max(min, Math.min(value, max))`. -/
def clamp (value lo hi : Int) : Int := max lo (min value hi)

/-- the calculated thresholds for trading -/
structure TradeThresholds where
  buyThreshold : Int
  sellThreshold : Int
  isValid : Bool
deriving DecidableEq, Repr

/--
Model of `calculateThresholds` (strategy-smart.ts).  The summary's
`avgSharePriceBeans` and `stdDevSharePriceBeans` fields — the only ones the
source reads — are passed as exact rationals.  `Math.floor` is `Int.floor`.
-/
def calculateThresholds (baselineAvg baselineStdDev : ℚ) : TradeThresholds :=
  let pair : Int × Int :=
    if baselineStdDev < 1 then
      (⌊baselineAvg - (MIN_STD_DEV_THRESHOLD_DIFF : ℚ)⌋,
       ⌊baselineAvg + (MIN_STD_DEV_THRESHOLD_DIFF : ℚ)⌋)
    else
      (⌊baselineAvg - K_FACTOR * baselineStdDev⌋,
       ⌊baselineAvg + K_FACTOR * baselineStdDev⌋)
  let buyThreshold : Int := max 1 pair.1
  let sellThreshold : Int := pair.2
  if sellThreshold ≤ buyThreshold then
    ⟨buyThreshold, sellThreshold, false⟩
  else
    ⟨buyThreshold, sellThreshold, true⟩

/- ### trade decisions (strategy-dumb.ts and strategy-smart.ts) -/

/-- the action of a trade decision -/
inductive TradeAction where
  | buy : TradeAction
  | sell : TradeAction
  | hold : TradeAction
deriving DecidableEq, Repr

/-- a trade decision: an action and a share count -/
structure TradeDecision where
  actionType : TradeAction
  shareCount : Int
deriving DecidableEq, Repr

/--
Model of `createTradeDecision` (strategy-dumb.ts): `toInteger` floors the
fractional share count; a non-positive result degrades to a hold.
-/
def createTradeDecision (actionType : TradeAction) (shareCountFractional : ℚ) : TradeDecision :=
  let shareCount : Int := ⌊shareCountFractional⌋
  if shareCount ≤ 0 then ⟨.hold, 0⟩ else ⟨actionType, shareCount⟩

/--
Model of `decideNextTrade` (src/strategy-dumb.ts, lines 53–113).  The
source's two nested `if` blocks with early returns are flattened into one
guarded chain; note that the source gates the *buy* ladder on the owned
share count (`shareCount > 0`) and sizes buys from it, while the *sell*
ladder is gated on and sized from `maximumShareCount = floor(wallet/price)`,
and that the sell ladder tests `>= 100` first, making the later rungs
unreachable.  All of this is reproduced faithfully.
-/
def decideNextTrade (currentPrice shareCount walletBeans : Int) : TradeDecision :=
  let maximumShareCount : Int := ⌊(walletBeans : ℚ) / (currentPrice : ℚ)⌋
  if 0 < shareCount ∧ currentPrice ≤ 40 then
    createTradeDecision .buy ((shareCount : ℚ) * (95 / 100))
  else if 0 < shareCount ∧ currentPrice ≤ 65 then
    createTradeDecision .buy ((shareCount : ℚ) * (8 / 10))
  else if 0 < shareCount ∧ currentPrice ≤ 80 then
    createTradeDecision .buy ((shareCount : ℚ) * (5 / 10))
  else if 0 < shareCount ∧ currentPrice ≤ 95 then
    createTradeDecision .buy ((shareCount : ℚ) * (25 / 100))
  else if 0 < shareCount ∧ currentPrice ≤ 100 then
    createTradeDecision .buy ((shareCount : ℚ) * (5 / 100))
  else if 0 < maximumShareCount ∧ 100 ≤ currentPrice then
    createTradeDecision .sell ((maximumShareCount : ℚ) * (1 / 10))
  else if 0 < maximumShareCount ∧ 110 ≤ currentPrice then
    createTradeDecision .sell ((maximumShareCount : ℚ) * (25 / 100))
  else if 0 < maximumShareCount ∧ 120 ≤ currentPrice then
    createTradeDecision .sell ((maximumShareCount : ℚ) * (70 / 100))
  else if 0 < maximumShareCount ∧ 130 ≤ currentPrice then
    createTradeDecision .sell ((maximumShareCount : ℚ) * (80 / 100))
  else if 0 < maximumShareCount ∧ 140 ≤ currentPrice then
    createTradeDecision .sell ((maximumShareCount : ℚ) * (95 / 100))
  else if 0 < maximumShareCount ∧ 150 ≤ currentPrice then
    createTradeDecision .sell ((maximumShareCount : ℚ) * (99 / 100))
  else
    createTradeDecision .hold 0

/--
Model of the decision-making section of `performTradeCycleSmart`
(src/strategy-smart.ts, lines 149–197), extracted as a pure function of the
current state and the calculated thresholds.  `Math.floor` of the integer
divisions and fraction products is `Int.floor` over `ℚ`.
-/
def performTradeCycleSmartDecision
    (currentPrice ownedShares walletBeans buyThreshold sellThreshold : Int) : TradeDecision :=
  if currentPrice < buyThreshold then
    let maxAffordableBasedOnBeans : Int :=
      ⌊((walletBeans - MINIMUM_BEAN_RESERVE : Int) : ℚ) / (currentPrice : ℚ)⌋
    if maxAffordableBasedOnBeans ≤ 0 then ⟨.hold, 0⟩
    else
      let desiredBuyAmount : Int := ⌊(maxAffordableBasedOnBeans : ℚ) * TRADE_FRACTION⌋
      let totalSharesToTrade := clamp desiredBuyAmount 1 maxAffordableBasedOnBeans
      if 0 < totalSharesToTrade then ⟨.buy, totalSharesToTrade⟩ else ⟨.hold, 0⟩
  else if sellThreshold < currentPrice then
    let maxSellableBasedOnReserve : Int := ownedShares - MINIMUM_SHARE_RESERVE
    if maxSellableBasedOnReserve ≤ 0 then ⟨.hold, 0⟩
    else
      let desiredSellAmount : Int := ⌊(maxSellableBasedOnReserve : ℚ) * TRADE_FRACTION⌋
      let totalSharesToTrade := clamp desiredSellAmount 1 maxSellableBasedOnReserve
      if 0 < totalSharesToTrade then ⟨.sell, totalSharesToTrade⟩ else ⟨.hold, 0⟩
  else ⟨.hold, 0⟩

/- ### market.ts — history store, state cache, summary compiler -/

/-- a row of the `history` table: the state of the market at a given time -/
structure HistoryRow where
  timestamp : Int
  sharePriceBeans : Int
  shareOwnedCount : Int
  walletBeans : Int
deriving DecidableEq, Repr

/-- the locally-cached copy of the market state (`MarketCache` in market.ts) -/
structure MarketCache where
  sharePriceBeans : Option Int
  shareOwnedCount : Option Int
  walletBeans : Option Int
  lastSyncTimestamp : Option Int
deriving DecidableEq, Repr

/--
Model of `getLatestHistory` (market.ts): the history table ordered by
ascending timestamp is a list with appends at the tail, so the row with the
greatest timestamp is the last element.
-/
def getLatestHistory (history : List HistoryRow) : Option HistoryRow :=
  history.getLast?

/--
Model of `synchronizeStateAndUpdateHistory` (market.ts).  The three fetched
quantities and the clock reading are passed in; the function overwrites the
whole cache, then appends a new history row exactly when the table is empty
or the latest row's price differs, returning the row it settled on together
with the new cache and history.
-/
def synchronizeStateAndUpdateHistory
    (sharePriceBeans shareOwnedCount walletBeans tNow : Int)
    (_cache : MarketCache) (history : List HistoryRow) :
    HistoryRow × MarketCache × List HistoryRow :=
  let cacheNew : MarketCache :=
    ⟨some sharePriceBeans, some shareOwnedCount, some walletBeans, some tNow⟩
  match getLatestHistory history with
  | some rowPrevious =>
    if rowPrevious.sharePriceBeans = sharePriceBeans then
      (rowPrevious, cacheNew, history)
    else
      let rowCurrent : HistoryRow := ⟨tNow, sharePriceBeans, shareOwnedCount, walletBeans⟩
      (rowCurrent, cacheNew, history ++ [rowCurrent])
  | none =>
    let rowCurrent : HistoryRow := ⟨tNow, sharePriceBeans, shareOwnedCount, walletBeans⟩
    (rowCurrent, cacheNew, history ++ [rowCurrent])

/--
Model of the SQL query `querySelectPricesInPeriod` (market.ts): the prices
of the history rows whose timestamp lies in `[periodStart, periodEnd]`, in
table order.
-/
def selectPricesInPeriod (history : List HistoryRow) (periodStart periodEnd : Int) : List Int :=
  (history.filter
      (fun row => decide (periodStart ≤ row.timestamp ∧ row.timestamp ≤ periodEnd))).map
    (fun row => row.sharePriceBeans)

/--
Model of `calculateStdDev` (market.ts): `0` for fewer than two points, else
the square root of the sample variance (division by `count - 1`).
-/
noncomputable def calculateStdDev (numbers : List ℚ) (avg : ℚ) : ℝ :=
  if numbers.length < 2 then 0
  else
    let variance : ℚ :=
      ((numbers.map (fun value => (value - avg) ^ 2)).sum) / ((numbers.length : ℚ) - 1)
    Real.sqrt (variance : ℝ)

/-- the state of the market over a period of time (`MarketSummary` in market.ts) -/
structure MarketSummary where
  periodStart : Int
  periodEnd : Int
  entryCount : Nat
  minSharePriceBeans : Int
  maxSharePriceBeans : Int
  avgSharePriceBeans : ℚ
  stdDevSharePriceBeans : ℝ

/--
Model of `compileMarketSummary` (market.ts): all four statistics default to
`0` and are overwritten only when the selected window is non-empty.
-/
noncomputable def compileMarketSummary
    (history : List HistoryRow) (periodStart periodEnd : Int) : MarketSummary :=
  let prices := selectPricesInPeriod history periodStart periodEnd
  let entryCount := prices.length
  if entryCount = 0 then
    ⟨periodStart, periodEnd, 0, 0, 0, 0, 0⟩
  else
    let minSharePriceBeans : Int := (prices.min?).getD 0
    let maxSharePriceBeans : Int := (prices.max?).getD 0
    let avgSharePriceBeans : ℚ := ((prices.sum : Int) : ℚ) / (entryCount : ℚ)
    ⟨periodStart, periodEnd, entryCount, minSharePriceBeans, maxSharePriceBeans,
      avgSharePriceBeans,
      calculateStdDev (prices.map (Int.cast : Int → ℚ)) avgSharePriceBeans⟩

/--
Modelled from the spec: the sample standard deviation of a list of prices
with Bessel's correction — the sum of squared deviations from the mean
divided by `entryCount - 1`, then the square root — defined as `0` when
there are fewer than two entries.  Written independently over `ℝ` to be
compared with the source's `calculateStdDev`.
-/
noncomputable def sampleStdDevSpec (prices : List Int) : ℝ :=
  if prices.length < 2 then 0
  else
    let n : ℝ := prices.length
    let mean : ℝ := ((prices.sum : Int) : ℝ) / n
    Real.sqrt (((prices.map (fun v => ((Int.cast v : ℝ) - mean) ^ 2)).sum) / (n - 1))

/- ### trade.ts — chunked order executor -/

/-- maximum number of shares that can be bought or sold in a single action -/
def MAXIMUM_SHARES_PER_ACTION : Nat := 200

/-- initial backoff delay in milliseconds when hitting a rate limit -/
def INITIAL_BACKOFF_MS : Nat := 30 * 1000

/-- maximum backoff delay in milliseconds -/
def MAX_BACKOFF_MS : Nat := 5 * 60 * 1000

/-- the classified kind of an error raised by a remote call -/
inductive ErrKind where
  /-- a `RateLimitError` -/
  | rateLimit : ErrKind
  /-- a plain `RequestError` -/
  | request : ErrKind
  /-- any other thrown value (fatal taxonomy) -/
  | fatal : ErrKind
deriving DecidableEq, Repr

/-- What the single post-backoff price re-check does: return a price, or
throw an error of some classified kind. -/
inductive Recheck where
  | price (newPrice : Int) : Recheck
  | failed (kind : ErrKind) : Recheck
deriving DecidableEq, Repr

/--
The outcome the environment supplies for one chunk attempt of
`executeTrade`: the `buyShares`/`sellShares` call either succeeds, throws a
`RateLimitError` (in which case the subsequent single price re-check either
returns a price or throws an error of some kind), throws a plain
`RequestError`, or throws anything else.
-/
inductive ChunkOutcome where
  | success : ChunkOutcome
  | rateLimited (recheck : Recheck) : ChunkOutcome
  | requestFailure : ChunkOutcome
  | fatalFailure : ChunkOutcome
deriving DecidableEq, Repr

/-- the result of `executeTrade` (`TradeResult` in trade.ts) -/
structure TradeResult where
  actionType : TradeAction
  totalShares : Nat
  remainingShares : Nat
  initialPrice : Int
  finalPrice : Int
  tradeCompleted : Bool
deriving DecidableEq, Repr

/-- how a run of the executor's loop ends -/
inductive ExecOutcome where
  /-- a fatal error propagated to the caller uncaught; the chunk sizes
  submitted up to and including the failing call are recorded -/
  | raised (submitted : List Nat) : ExecOutcome
  /-- the function returned a `TradeResult` normally -/
  | finished (result : TradeResult) (submitted : List Nat) : ExecOutcome
  /-- the supplied outcome script ran out while the loop still had shares
  remaining (no corresponding behaviour is modelled) -/
  | outOfScript (submitted : List Nat) : ExecOutcome
deriving DecidableEq, Repr

/--
Model of the `while (remainingShares > 0)` loop of `executeTrade`
(trade.ts).  Each iteration submits one chunk of
`min(remaining, MAXIMUM_SHARES_PER_ACTION)` shares and consumes one entry of
the outcome script.  Success decrements `remaining` and resets the backoff;
a rate limit doubles the backoff (capped) and then re-checks the price,
aborting on a change or on any re-check error, retrying the same chunk
otherwise; a plain request error aborts; anything else is rethrown.  Sleeps
and the rate-tracker consultation have no effect on the trade state and are
elided.  After the loop, `tradeCompleted` is true exactly when `remaining`
reached `0`; the final cached price read is the `finalPrice` parameter.
-/
def runTrade (act : TradeAction) (totalShares : Nat) (initialPrice finalPrice : Int) :
    List ChunkOutcome → Nat → Nat → List Nat → ExecOutcome
  | events, remaining, backoff, submitted =>
    if remaining = 0 then
      .finished ⟨act, totalShares, 0, initialPrice, finalPrice, true⟩ submitted.reverse
    else
      match events with
      | [] => .outOfScript submitted.reverse
      | event :: events' =>
        let chunkSize := min remaining MAXIMUM_SHARES_PER_ACTION
        let submitted' := chunkSize :: submitted
        match event with
        | .success =>
          runTrade act totalShares initialPrice finalPrice
            events' (remaining - chunkSize) INITIAL_BACKOFF_MS submitted'
        | .rateLimited (.price newPrice) =>
          let backoff' := min (backoff * 2) MAX_BACKOFF_MS
          if newPrice = initialPrice then
            runTrade act totalShares initialPrice finalPrice events' remaining backoff' submitted'
          else
            .finished ⟨act, totalShares, remaining, initialPrice, finalPrice, false⟩
              submitted'.reverse
        | .rateLimited (.failed _) =>
          .finished ⟨act, totalShares, remaining, initialPrice, finalPrice, false⟩
            submitted'.reverse
        | .requestFailure =>
          .finished ⟨act, totalShares, remaining, initialPrice, finalPrice, false⟩
            submitted'.reverse
        | .fatalFailure => .raised submitted'.reverse

/-- Model of `executeTrade` (trade.ts): run the loop from the full order. -/
def executeTrade (act : TradeAction) (totalShares : Nat) (initialPrice finalPrice : Int)
    (events : List ChunkOutcome) : ExecOutcome :=
  runTrade act totalShares initialPrice finalPrice events totalShares INITIAL_BACKOFF_MS []

/-- the chunk sizes submitted during a run, in submission order -/
def submittedOf : ExecOutcome → List Nat
  | .raised s => s
  | .finished _ s => s
  | .outOfScript s => s

/-- whether a run ended with an uncaught (fatal) error -/
def isRaised : ExecOutcome → Bool
  | .raised _ => true
  | _ => false

/- ### helper lemmas -/

/--
A decision built by `createTradeDecision` for a non-hold action holds
exactly when its share count is `0`, and carries at least one share
otherwise.
-/
theorem createTradeDecision_sound (actionType : TradeAction) (q : ℚ)
    (ha : actionType ≠ .hold) :
    ((createTradeDecision actionType q).actionType = .hold ↔
      (createTradeDecision actionType q).shareCount = 0)
    ∧ ((createTradeDecision actionType q).actionType ≠ .hold →
      1 ≤ (createTradeDecision actionType q).shareCount) := by
  unfold createTradeDecision
  by_cases h : ⌊q⌋ ≤ 0
  · simp [h]
  · simp only [h, if_false]
    refine ⟨⟨fun hh => absurd hh ha, fun hh => absurd hh (by omega)⟩, fun _ => by omega⟩

/-- The final fall-through call of the band policy produces a hold of 0. -/
theorem createTradeDecision_hold_zero :
    createTradeDecision .hold 0 = ⟨.hold, 0⟩ := by
  unfold createTradeDecision
  norm_num

/- ### C4, C5, C6 helper lemmas (executor loop invariants) -/

/--
Every normal return of the executor loop satisfies
`tradeCompleted ↔ remainingShares = 0`.
-/
theorem runTrade_finished_completed
    (act : TradeAction) (totalShares : Nat) (initialPrice finalPrice : Int) :
    ∀ (events : List ChunkOutcome) (remaining backoff : Nat) (submitted subsOut : List Nat)
      (result : TradeResult),
      runTrade act totalShares initialPrice finalPrice events remaining backoff submitted
        = .finished result subsOut →
      (result.tradeCompleted = true ↔ result.remainingShares = 0) := by
  intro events
  induction events with
  | nil =>
    intro remaining backoff submitted subsOut result h
    rw [runTrade] at h
    by_cases hr : remaining = 0
    · rw [if_pos hr] at h
      injection h with h1 h2
      subst h1
      simp
    · rw [if_neg hr] at h
      exact ExecOutcome.noConfusion h
  | cons e es ih =>
    intro remaining backoff submitted subsOut result h
    rw [runTrade] at h
    by_cases hr : remaining = 0
    · rw [if_pos hr] at h
      injection h with h1 h2
      subst h1
      simp
    · rw [if_neg hr] at h
      cases e with
      | success =>
        dsimp only at h
        exact ih _ _ _ _ _ h
      | rateLimited rc =>
        cases rc with
        | price np =>
          dsimp only at h
          by_cases hp : np = initialPrice
          · rw [if_pos hp] at h
            exact ih _ _ _ _ _ h
          · rw [if_neg hp] at h
            injection h with h1 h2
            subst h1
            simpa using hr
        | failed k =>
          dsimp only at h
          injection h with h1 h2
          subst h1
          simpa using hr
      | requestFailure =>
        dsimp only at h
        injection h with h1 h2
        subst h1
        simpa using hr
      | fatalFailure =>
        dsimp only at h
        exact ExecOutcome.noConfusion h

/--
The chunk sizes already pushed to the accumulator form a prefix of the
final submission record, whatever the rest of the run does.
-/
theorem runTrade_submitted_prefix
    (act : TradeAction) (totalShares : Nat) (initialPrice finalPrice : Int) :
    ∀ (events : List ChunkOutcome) (remaining backoff : Nat) (submitted : List Nat),
      ∃ tail,
        submittedOf (runTrade act totalShares initialPrice finalPrice
            events remaining backoff submitted)
          = submitted.reverse ++ tail := by
  intro events
  induction events with
  | nil =>
    intro remaining backoff submitted
    rw [runTrade]
    by_cases hr : remaining = 0
    · rw [if_pos hr]
      exact ⟨[], by simp [submittedOf]⟩
    · rw [if_neg hr]
      exact ⟨[], by simp [submittedOf]⟩
  | cons e es ih =>
    intro remaining backoff submitted
    rw [runTrade]
    by_cases hr : remaining = 0
    · rw [if_pos hr]
      exact ⟨[], by simp [submittedOf]⟩
    · rw [if_neg hr]
      cases e with
      | success =>
        dsimp only
        obtain ⟨tail, ht⟩ := ih (remaining - min remaining MAXIMUM_SHARES_PER_ACTION)
          INITIAL_BACKOFF_MS (min remaining MAXIMUM_SHARES_PER_ACTION :: submitted)
        exact ⟨min remaining MAXIMUM_SHARES_PER_ACTION :: tail, by
          rw [ht]; simp⟩
      | rateLimited rc =>
        cases rc with
        | price np =>
          dsimp only
          by_cases hp : np = initialPrice
          · rw [if_pos hp]
            obtain ⟨tail, ht⟩ := ih remaining (min (backoff * 2) MAX_BACKOFF_MS)
              (min remaining MAXIMUM_SHARES_PER_ACTION :: submitted)
            exact ⟨min remaining MAXIMUM_SHARES_PER_ACTION :: tail, by
              rw [ht]; simp⟩
          · rw [if_neg hp]
            exact ⟨[min remaining MAXIMUM_SHARES_PER_ACTION], by simp [submittedOf]⟩
        | failed k =>
          dsimp only
          exact ⟨[min remaining MAXIMUM_SHARES_PER_ACTION], by simp [submittedOf]⟩
      | requestFailure =>
        dsimp only
        exact ⟨[min remaining MAXIMUM_SHARES_PER_ACTION], by simp [submittedOf]⟩
      | fatalFailure =>
        dsimp only
        exact ⟨[min remaining MAXIMUM_SHARES_PER_ACTION], by simp [submittedOf]⟩

/- ### C1 — rate tracker -/

/--
C1: the rate tracker's count is wrong in both directions.  A single call
recorded 70 seconds before the query is *kept* by the filter (the claim
says every entry older than 60 seconds is discarded, so the count should
be 0), while a call recorded one second before the query is *discarded*
(the claim says recent entries are counted, so the count should be 1).
This evaluates `getRequestsInLastMinute` at both failing inputs.
-/
theorem getRequestsInLastMinute_inverted_filter :
    getRequestsInLastMinute 70000 [0] = ([0], 1)
    ∧ getRequestsInLastMinute 30000 [29000] = ([], 0) := by
  decide

/- ### C9 — transport failure classification -/

/--
C9 counterexample: a response that carries the rate-limit status 429 but
whose body fails to parse is classified as a plain `RequestError`, not as
a `RateLimitError` — the body is parsed before the status is consulted —
contradicting the claim that failure is classified as `RateLimitError`
exactly when the remote responds with status 429.
-/
theorem sendRequest_cexample :
    sendRequest ⟨true, 429, false, false⟩ = .requestError
    ∧ sendRequest ⟨true, 429, false, false⟩ ≠ .rateLimitError
    ∧ RemoteBehavior.status ⟨true, 429, false, false⟩ = 429 := by
  decide

/--
C9 (amended): `sendRequest` raises `RateLimitError` exactly when the
network call succeeds, the body is empty or parses, and the status is 429;
it returns normally exactly when the network call succeeds, the body is
empty or parses, and the status is 2xx; every other outcome — network
failure, a malformed non-empty body (even alongside status 429), or any
remaining non-2xx status — raises a plain `RequestError`.
-/
theorem sendRequest_classification (r : RemoteBehavior) :
    (sendRequest r = .rateLimitError ↔
      r.networkOk = true ∧ (r.contentLengthZero = true ∨ r.bodyParses = true)
        ∧ r.status = 429)
    ∧ (sendRequest r = .ok ↔
      r.networkOk = true ∧ (r.contentLengthZero = true ∨ r.bodyParses = true)
        ∧ 200 ≤ r.status ∧ r.status ≤ 299)
    ∧ (sendRequest r = .requestError ↔
      r.networkOk = false ∨ (r.contentLengthZero = false ∧ r.bodyParses = false)
        ∨ (¬(200 ≤ r.status ∧ r.status ≤ 299) ∧ r.status ≠ 429)) := by
  obtain ⟨nok, st, clz, bp⟩ := r
  unfold sendRequest
  cases nok <;> cases clz <;> cases bp <;>
    simp only [] <;> split_ifs <;> simp_all <;> omega

/- ### C3 — threshold calculator -/

/-- The buy threshold field of `calculateThresholds`, written out. -/
theorem calculateThresholds_buy (baselineAvg baselineStdDev : ℚ) :
    (calculateThresholds baselineAvg baselineStdDev).buyThreshold
      = max 1 (if baselineStdDev < 1 then ⌊baselineAvg - (MIN_STD_DEV_THRESHOLD_DIFF : ℚ)⌋
               else ⌊baselineAvg - K_FACTOR * baselineStdDev⌋) := by
  unfold calculateThresholds
  by_cases h : baselineStdDev < 1 <;> simp only [h, if_true, if_false] <;> split <;> rfl

/-- The sell threshold field of `calculateThresholds`, written out. -/
theorem calculateThresholds_sell (baselineAvg baselineStdDev : ℚ) :
    (calculateThresholds baselineAvg baselineStdDev).sellThreshold
      = (if baselineStdDev < 1 then ⌊baselineAvg + (MIN_STD_DEV_THRESHOLD_DIFF : ℚ)⌋
         else ⌊baselineAvg + K_FACTOR * baselineStdDev⌋) := by
  unfold calculateThresholds
  by_cases h : baselineStdDev < 1 <;> simp only [h, if_true, if_false] <;> split <;> rfl

/--
C3 counterexample: the minimum-of-1 clamp on the buy threshold breaks both
exact formulas of the claim.  With `avg = 2, sd = 0` (the fallback branch)
the returned spread is `7 - 1 = 6`, not `2 × 5`; with `avg = 2, sd = 3`
(the `sd ≥ 1` branch) the returned buy threshold is `1`, not
`⌊avg - K·sd⌋ = -1`.
-/
theorem calculateThresholds_cexample :
    (calculateThresholds 2 0).sellThreshold - (calculateThresholds 2 0).buyThreshold
        ≠ 2 * MIN_STD_DEV_THRESHOLD_DIFF
    ∧ (calculateThresholds 2 3).buyThreshold ≠ ⌊(2 : ℚ) - K_FACTOR * 3⌋ := by
  have hb0 := calculateThresholds_buy 2 0
  have hs0 := calculateThresholds_sell 2 0
  have hb3 := calculateThresholds_buy 2 3
  norm_num [MIN_STD_DEV_THRESHOLD_DIFF, K_FACTOR] at hb0 hs0 hb3
  constructor
  · rw [hb0, hs0]; norm_num [MIN_STD_DEV_THRESHOLD_DIFF]
  · rw [hb3]; norm_num [K_FACTOR]

/--
C3 (amended): for `sd ≥ 1` the calculator returns
`buy = max 1 ⌊avg - K·sd⌋` and `sell = ⌊avg + K·sd⌋`; for `sd < 1` it
returns `buy = max 1 ⌊avg - F⌋` and `sell = ⌊avg + F⌋` with `F` the fixed
fallback spread, so the spread `sell - buy` equals exactly `2·F` whenever
the clamp is inactive (`⌊avg - F⌋ ≥ 1`); in all cases the returned buy
threshold is at least 1.
-/
theorem calculateThresholds_amended (baselineAvg baselineStdDev : ℚ) :
    (1 ≤ baselineStdDev →
      (calculateThresholds baselineAvg baselineStdDev).buyThreshold
          = max 1 ⌊baselineAvg - K_FACTOR * baselineStdDev⌋
      ∧ (calculateThresholds baselineAvg baselineStdDev).sellThreshold
          = ⌊baselineAvg + K_FACTOR * baselineStdDev⌋)
    ∧ (baselineStdDev < 1 →
      (calculateThresholds baselineAvg baselineStdDev).buyThreshold
          = max 1 ⌊baselineAvg - (MIN_STD_DEV_THRESHOLD_DIFF : ℚ)⌋
      ∧ (calculateThresholds baselineAvg baselineStdDev).sellThreshold
          = ⌊baselineAvg + (MIN_STD_DEV_THRESHOLD_DIFF : ℚ)⌋
      ∧ (1 ≤ ⌊baselineAvg - (MIN_STD_DEV_THRESHOLD_DIFF : ℚ)⌋ →
          (calculateThresholds baselineAvg baselineStdDev).sellThreshold
              - (calculateThresholds baselineAvg baselineStdDev).buyThreshold
            = 2 * MIN_STD_DEV_THRESHOLD_DIFF))
    ∧ 1 ≤ (calculateThresholds baselineAvg baselineStdDev).buyThreshold := by
  have hbuy := calculateThresholds_buy baselineAvg baselineStdDev
  have hsell := calculateThresholds_sell baselineAvg baselineStdDev
  by_cases h : baselineStdDev < 1
  · rw [if_pos h] at hbuy hsell
    refine ⟨fun h1 => absurd h (not_lt.2 h1), fun _ => ⟨hbuy, hsell, fun hcl => ?_⟩,
      by rw [hbuy]; exact le_max_left 1 _⟩
    rw [hbuy, hsell, max_eq_right hcl, Int.floor_add_int, Int.floor_sub_int]
    omega
  · rw [if_neg h] at hbuy hsell
    exact ⟨fun _ => ⟨hbuy, hsell⟩, fun h1 => absurd h1 h,
      by rw [hbuy]; exact le_max_left 1 _⟩

/--
C3 witness: the amended theorem applied at the concrete summary
`avg = 20, sd = 0` — the fallback branch with an inactive clamp gives
thresholds 15 and 25, a spread of exactly `2 × 5`.
-/
theorem calculateThresholds_amended_witness :
    (calculateThresholds 20 0).buyThreshold = 15
    ∧ (calculateThresholds 20 0).sellThreshold = 25
    ∧ (calculateThresholds 20 0).sellThreshold - (calculateThresholds 20 0).buyThreshold
        = 2 * MIN_STD_DEV_THRESHOLD_DIFF := by
  obtain ⟨h1, h2, h3⟩ := (calculateThresholds_amended 20 0).2.1 (by norm_num)
  refine ⟨?_, ?_, ?_⟩
  · rw [h1]; norm_num [MIN_STD_DEV_THRESHOLD_DIFF]
  · rw [h2]; norm_num [MIN_STD_DEV_THRESHOLD_DIFF]
  · refine h3 ?_
    norm_num [MIN_STD_DEV_THRESHOLD_DIFF]

/- ### C2 — decision quantity invariants -/

/--
Every result of the band policy is either the fall-through hold or a
`createTradeDecision` for a non-hold action.
-/
theorem decideNextTrade_shape (p s w : Int) :
    decideNextTrade p s w = ⟨.hold, 0⟩
    ∨ ∃ a q, a ≠ TradeAction.hold ∧ decideNextTrade p s w = createTradeDecision a q := by
  unfold decideNextTrade
  dsimp only
  by_cases h0 : 0 < s ∧ p ≤ 40
  · rw [if_pos h0]
    exact Or.inr ⟨TradeAction.buy, _, by decide, rfl⟩
  rw [if_neg h0]
  by_cases h1 : 0 < s ∧ p ≤ 65
  · rw [if_pos h1]
    exact Or.inr ⟨TradeAction.buy, _, by decide, rfl⟩
  rw [if_neg h1]
  by_cases h2 : 0 < s ∧ p ≤ 80
  · rw [if_pos h2]
    exact Or.inr ⟨TradeAction.buy, _, by decide, rfl⟩
  rw [if_neg h2]
  by_cases h3 : 0 < s ∧ p ≤ 95
  · rw [if_pos h3]
    exact Or.inr ⟨TradeAction.buy, _, by decide, rfl⟩
  rw [if_neg h3]
  by_cases h4 : 0 < s ∧ p ≤ 100
  · rw [if_pos h4]
    exact Or.inr ⟨TradeAction.buy, _, by decide, rfl⟩
  rw [if_neg h4]
  by_cases h5 : 0 < ⌊(w : ℚ) / (p : ℚ)⌋ ∧ 100 ≤ p
  · rw [if_pos h5]
    exact Or.inr ⟨TradeAction.sell, _, by decide, rfl⟩
  rw [if_neg h5]
  by_cases h6 : 0 < ⌊(w : ℚ) / (p : ℚ)⌋ ∧ 110 ≤ p
  · rw [if_pos h6]
    exact Or.inr ⟨TradeAction.sell, _, by decide, rfl⟩
  rw [if_neg h6]
  by_cases h7 : 0 < ⌊(w : ℚ) / (p : ℚ)⌋ ∧ 120 ≤ p
  · rw [if_pos h7]
    exact Or.inr ⟨TradeAction.sell, _, by decide, rfl⟩
  rw [if_neg h7]
  by_cases h8 : 0 < ⌊(w : ℚ) / (p : ℚ)⌋ ∧ 130 ≤ p
  · rw [if_pos h8]
    exact Or.inr ⟨TradeAction.sell, _, by decide, rfl⟩
  rw [if_neg h8]
  by_cases h9 : 0 < ⌊(w : ℚ) / (p : ℚ)⌋ ∧ 140 ≤ p
  · rw [if_pos h9]
    exact Or.inr ⟨TradeAction.sell, _, by decide, rfl⟩
  rw [if_neg h9]
  by_cases h10 : 0 < ⌊(w : ℚ) / (p : ℚ)⌋ ∧ 150 ≤ p
  · rw [if_pos h10]
    exact Or.inr ⟨TradeAction.sell, _, by decide, rfl⟩
  rw [if_neg h10]
  exact Or.inl createTradeDecision_hold_zero

/--
C2 counterexample: the static-band policy (`decideNextTrade` in
src/strategy-dumb.ts) sizes buys from the *owned share count* and sells
from the *wallet-affordable count*.  With price 40, 1000 owned shares and
an empty wallet it decides to buy 950 shares although the maximum
affordable buy count `⌊(0 - 0)/40⌋` is 0; with price 100, no owned shares
and 10000 beans it decides to sell 10 shares although the sellable
holdings are 0.  Both quantities fall outside `[1, availableMax]`.
-/
theorem decideNextTrade_cexample :
    decideNextTrade 40 1000 0 = ⟨.buy, 950⟩
    ∧ ¬((decideNextTrade 40 1000 0).shareCount ≤ ⌊((0 : Int) : ℚ) / ((40 : Int) : ℚ)⌋)
    ∧ decideNextTrade 100 0 10000 = ⟨.sell, 10⟩
    ∧ ¬((decideNextTrade 100 0 10000).shareCount ≤ (0 : Int)) := by
  have h1 : decideNextTrade 40 1000 0 = ⟨.buy, 950⟩ := by
    norm_num [decideNextTrade, createTradeDecision]
  have h2 : decideNextTrade 100 0 10000 = ⟨.sell, 10⟩ := by
    norm_num [decideNextTrade, createTradeDecision]
  refine ⟨h1, ?_, h2, ?_⟩
  · rw [h1]; norm_num
  · rw [h2]; norm_num

/--
C2 (amended): for both decision policies the quantity is 0 exactly when
the action is hold, and at least 1 otherwise (every path computing a
non-positive quantity degrades to hold).  The threshold policy
additionally keeps buy quantities within
`[1, ⌊(balance - reserve)/price⌋]` and sell quantities within
`[1, ownedShares - reserve]`; the static-band policy does *not* bound its
quantities by those availability maxima (see the counterexample), its buys
being fractions of the owned share count and its sells fractions of the
wallet-affordable count.
-/
theorem decision_quantity_amended :
    (∀ currentPrice shareCount walletBeans : Int,
      ((decideNextTrade currentPrice shareCount walletBeans).actionType = .hold ↔
        (decideNextTrade currentPrice shareCount walletBeans).shareCount = 0)
      ∧ ((decideNextTrade currentPrice shareCount walletBeans).actionType ≠ .hold →
        1 ≤ (decideNextTrade currentPrice shareCount walletBeans).shareCount))
    ∧ (∀ currentPrice ownedShares walletBeans buyThreshold sellThreshold : Int,
      ((performTradeCycleSmartDecision currentPrice ownedShares walletBeans
          buyThreshold sellThreshold).actionType = .hold ↔
        (performTradeCycleSmartDecision currentPrice ownedShares walletBeans
          buyThreshold sellThreshold).shareCount = 0)
      ∧ ((performTradeCycleSmartDecision currentPrice ownedShares walletBeans
          buyThreshold sellThreshold).actionType = .buy →
        1 ≤ (performTradeCycleSmartDecision currentPrice ownedShares walletBeans
              buyThreshold sellThreshold).shareCount
        ∧ (performTradeCycleSmartDecision currentPrice ownedShares walletBeans
              buyThreshold sellThreshold).shareCount
            ≤ ⌊((walletBeans - MINIMUM_BEAN_RESERVE : Int) : ℚ) / ((currentPrice : Int) : ℚ)⌋)
      ∧ ((performTradeCycleSmartDecision currentPrice ownedShares walletBeans
          buyThreshold sellThreshold).actionType = .sell →
        1 ≤ (performTradeCycleSmartDecision currentPrice ownedShares walletBeans
              buyThreshold sellThreshold).shareCount
        ∧ (performTradeCycleSmartDecision currentPrice ownedShares walletBeans
              buyThreshold sellThreshold).shareCount
            ≤ ownedShares - MINIMUM_SHARE_RESERVE)) := by
  constructor
  · intro currentPrice shareCount walletBeans
    obtain h | ⟨a, q, ha, heq⟩ := decideNextTrade_shape currentPrice shareCount walletBeans
    · rw [h]; exact ⟨by simp, fun hne => absurd rfl hne⟩
    · rw [heq]; exact createTradeDecision_sound a q ha
  · intro currentPrice ownedShares walletBeans buyThreshold sellThreshold
    unfold performTradeCycleSmartDecision
    dsimp only
    set m := ⌊((walletBeans - MINIMUM_BEAN_RESERVE : Int) : ℚ) / (currentPrice : ℚ)⌋ with hm
    set d := ⌊(m : ℚ) * TRADE_FRACTION⌋ with hd
    set ms := ownedShares - MINIMUM_SHARE_RESERVE with hms
    set d2 := ⌊(ms : ℚ) * TRADE_FRACTION⌋ with hd2
    have hcl : clamp d 1 m = max 1 (min d m) := rfl
    have hcl2 : clamp d2 1 ms = max 1 (min d2 ms) := rfl
    split_ifs with hb haff hpos hs hsl hpos2 <;>
      refine ⟨⟨fun h => ?_, fun h => ?_⟩, fun h => ?_, fun h => ?_⟩ <;>
        first
          | rfl
          | exact absurd h (by decide)
          | (exfalso; revert h; dsimp only; rw [hcl] <;> omega)
          | (exfalso; revert h; dsimp only; rw [hcl2] <;> omega)
          | (dsimp only; rw [hcl]; constructor <;> omega)
          | (dsimp only; rw [hcl2]; constructor <;> omega)


/- ### C4 — fatal error propagation in the executor -/

/--
C4 counterexample: a chunk hits a rate limit and the post-backoff price
re-check then throws a fatal-kind error (neither `RateLimitError` nor
`RequestError`, e.g. the plain `Error` thrown on a malformed price
response).  The executor does *not* propagate it: the inner catch swallows
the error and returns a normal partial result, refuting the claim that
such re-check errors reach the caller uncaught.
-/
theorem executeTrade_fatal_cexample :
    isRaised (executeTrade .buy 10 100 100 [.rateLimited (.failed .fatal)]) = false
    ∧ executeTrade .buy 10 100 100 [.rateLimited (.failed .fatal)]
        = .finished ⟨.buy, 10, 10, 100, 100, false⟩ [10] := by
  decide

/--
C4 (amended): an error from a *chunk submission* that is neither a
`RateLimitError` nor a `RequestError` propagates to the caller uncaught,
but an error of *any* kind raised by the post-backoff price re-check is
caught: it aborts the remaining chunks and the executor still returns a
normal (partial) result.
-/
theorem executeTrade_fatal_amended (act : TradeAction) (totalShares : Nat)
    (initialPrice finalPrice : Int) (events : List ChunkOutcome)
    (remaining backoff : Nat) (submitted : List Nat) (kind : ErrKind)
    (h : remaining ≠ 0) :
    runTrade act totalShares initialPrice finalPrice
        (.fatalFailure :: events) remaining backoff submitted
      = .raised ((min remaining MAXIMUM_SHARES_PER_ACTION :: submitted).reverse)
    ∧ isRaised (runTrade act totalShares initialPrice finalPrice
        (.rateLimited (.failed kind) :: events) remaining backoff submitted) = false := by
  constructor
  · rw [runTrade, if_neg h]
  · rw [runTrade, if_neg h]
    rfl

/--
C4 witness: the amended theorem at a concrete state — a fatal chunk
failure with 10 shares outstanding is rethrown, while a request-kind
re-check failure is not.
-/
theorem executeTrade_fatal_amended_witness :
    runTrade .buy 10 100 100 [.fatalFailure] 10 30000 [] = .raised [10]
    ∧ isRaised (runTrade .buy 10 100 100
        [.rateLimited (.failed .request)] 10 30000 []) = false := by
  have h := executeTrade_fatal_amended .buy 10 100 100 [] 10 30000 [] .request (by decide)
  exact ⟨by rw [h.1]; decide, h.2⟩

/- ### C5 — abort on price change, completion flag -/

/--
C5: if a chunk fails with a rate-limit error and the single post-backoff
price read differs from the reference price, the executor stops — it
returns a normal result whose remaining share count is exactly the count
before the failing chunk (chunks already executed stay decremented, and
`remaining > 0` so `completed = false`); moreover every terminal result of
the loop has `tradeCompleted` true exactly when `remainingShares = 0`.
-/
theorem executeTrade_abort_on_price_change :
    (∀ (act : TradeAction) (totalShares : Nat) (initialPrice finalPrice newPrice : Int)
        (events : List ChunkOutcome) (remaining backoff : Nat) (submitted : List Nat),
      remaining ≠ 0 → newPrice ≠ initialPrice →
      runTrade act totalShares initialPrice finalPrice
          (.rateLimited (.price newPrice) :: events) remaining backoff submitted
        = .finished ⟨act, totalShares, remaining, initialPrice, finalPrice, false⟩
            ((min remaining MAXIMUM_SHARES_PER_ACTION :: submitted).reverse))
    ∧ (∀ (act : TradeAction) (totalShares : Nat) (initialPrice finalPrice : Int)
        (events : List ChunkOutcome) (remaining backoff : Nat)
        (submitted subsOut : List Nat) (result : TradeResult),
      runTrade act totalShares initialPrice finalPrice events remaining backoff submitted
          = .finished result subsOut →
      (result.tradeCompleted = true ↔ result.remainingShares = 0)) := by
  constructor
  · intro act totalShares initialPrice finalPrice newPrice events remaining backoff submitted
      hr hp
    rw [runTrade, if_neg hr]
    dsimp only
    rw [if_neg hp]
  · exact fun act totalShares initialPrice finalPrice =>
      runTrade_finished_completed act totalShares initialPrice finalPrice

/--
C5 witness: a 300-share buy whose first chunk of 200 succeeds and whose
second chunk hits a rate limit followed by a price change (99 ≠ 100)
terminates with 100 shares remaining — the completed first chunk is not
rolled back — and `completed = false` consistently with `remaining ≠ 0`.
-/
theorem executeTrade_abort_on_price_change_witness :
    runTrade .buy 300 100 100 [.rateLimited (.price 99)] 100 30000 [200]
      = .finished ⟨.buy, 300, 100, 100, 100, false⟩ [200, 100]
    ∧ ((TradeResult.mk .buy 300 100 100 100 false).tradeCompleted = true ↔
        (TradeResult.mk .buy 300 100 100 100 false).remainingShares = 0) := by
  have h1 := executeTrade_abort_on_price_change.1 .buy 300 100 100 99 [] 100 30000 [200]
    (by decide) (by decide)
  refine ⟨by rw [h1]; rfl, ?_⟩
  exact executeTrade_abort_on_price_change.2 .buy 300 100 100 [.rateLimited (.price 99)]
    100 30000 [200] [200, 100] _ (by rw [h1]; rfl)

/- ### C6 — chunk sizes -/

/--
C6: whenever the executor loop submits a chunk (shares remain and an
outcome is available for the attempt), that chunk has size
`min(remaining, MAXIMUM_SHARES_PER_ACTION)` — it is the next entry of the
submission record after the already-recorded ones — and, concretely, an
all-success execution of 450 shares with the 200-share cap issues exactly
the three chunks 200, 200, 50 in that order and completes.
-/
theorem executeTrade_chunk_sizes :
    (∀ (act : TradeAction) (totalShares : Nat) (initialPrice finalPrice : Int)
        (event : ChunkOutcome) (events : List ChunkOutcome)
        (remaining backoff : Nat) (submitted : List Nat),
      remaining ≠ 0 →
      (submittedOf (runTrade act totalShares initialPrice finalPrice
          (event :: events) remaining backoff submitted)).get? submitted.length
        = some (min remaining MAXIMUM_SHARES_PER_ACTION))
    ∧ executeTrade .buy 450 100 100 [.success, .success, .success]
        = .finished ⟨.buy, 450, 0, 100, 100, true⟩ [200, 200, 50] := by
  constructor
  · intro act totalShares initialPrice finalPrice event events remaining backoff submitted hr
    have key : ∃ tail,
        submittedOf (runTrade act totalShares initialPrice finalPrice
            (event :: events) remaining backoff submitted)
          = submitted.reverse ++ min remaining MAXIMUM_SHARES_PER_ACTION :: tail := by
      rw [runTrade, if_neg hr]
      cases event with
      | success =>
        dsimp only
        obtain ⟨tail, ht⟩ := runTrade_submitted_prefix act totalShares initialPrice finalPrice
          events (remaining - min remaining MAXIMUM_SHARES_PER_ACTION) INITIAL_BACKOFF_MS
          (min remaining MAXIMUM_SHARES_PER_ACTION :: submitted)
        exact ⟨tail, by rw [ht]; simp⟩
      | rateLimited rc =>
        cases rc with
        | price np =>
          dsimp only
          by_cases hp : np = initialPrice
          · rw [if_pos hp]
            obtain ⟨tail, ht⟩ := runTrade_submitted_prefix act totalShares initialPrice finalPrice
              events remaining (min (backoff * 2) MAX_BACKOFF_MS)
              (min remaining MAXIMUM_SHARES_PER_ACTION :: submitted)
            exact ⟨tail, by rw [ht]; simp⟩
          · rw [if_neg hp]
            exact ⟨[], by simp [submittedOf]⟩
        | failed k =>
          dsimp only
          exact ⟨[], by simp [submittedOf]⟩
      | requestFailure =>
        dsimp only
        exact ⟨[], by simp [submittedOf]⟩
      | fatalFailure =>
        dsimp only
        exact ⟨[], by simp [submittedOf]⟩
    obtain ⟨tail, ht⟩ := key
    rw [ht]
    rw [show submitted.length = submitted.reverse.length from (List.length_reverse _).symm]
    rw [List.get?_append_right (le_refl _)]
    simp
  · decide

/--
C6 witness: the general part applied at the start of a 450-share order —
the first submitted chunk has size `min 450 200 = 200`.
-/
theorem executeTrade_chunk_sizes_witness :
    (submittedOf (runTrade .buy 450 100 100 [.success] 450 30000 [])).get? 0
      = some 200 := by
  have h := executeTrade_chunk_sizes.1 .buy 450 100 100 .success [] 450 30000 [] (by decide)
  simpa using h

/--
C2 witness: the amended theorem applied concretely — the threshold policy
at price 10, 5 owned shares, 1000 beans and thresholds (20, 30) buys
61 shares, inside `[1, ⌊(1000 - 180)/10⌋] = [1, 82]`; the band policy at
price 40, 1000 owned shares, 0 beans emits a positive buy quantity.
-/
theorem decision_quantity_amended_witness :
    (performTradeCycleSmartDecision 10 5 1000 20 30).actionType = .buy
    ∧ 1 ≤ (performTradeCycleSmartDecision 10 5 1000 20 30).shareCount
    ∧ (performTradeCycleSmartDecision 10 5 1000 20 30).shareCount
        ≤ ⌊((1000 - MINIMUM_BEAN_RESERVE : Int) : ℚ) / ((10 : Int) : ℚ)⌋
    ∧ 1 ≤ (decideNextTrade 40 1000 0).shareCount := by
  have hEq : performTradeCycleSmartDecision 10 5 1000 20 30 = ⟨.buy, 61⟩ := by
    norm_num [performTradeCycleSmartDecision, clamp, TRADE_FRACTION,
      MINIMUM_BEAN_RESERVE, MINIMUM_SHARE_RESERVE]
  have hEq2 : decideNextTrade 40 1000 0 = ⟨.buy, 950⟩ := by
    norm_num [decideNextTrade, createTradeDecision]
  have hbound := (decision_quantity_amended.2 10 5 1000 20 30).2.1 (by rw [hEq])
  have hpos := (decision_quantity_amended.1 40 1000 0).2 (by rw [hEq2]; decide)
  exact ⟨by rw [hEq], hbound.1, hbound.2, hpos⟩

/- ### C7 — history deduplication on synchronize -/

/--
C7: synchronization appends a snapshot exactly when the store is empty or
the fetched price differs from the latest stored snapshot's price,
returning the appended row in those cases and the unchanged latest row
otherwise; consequently two consecutive synchronizations observing the
same price (a price that is new relative to the prior store) append
exactly one snapshot in total.
-/
theorem synchronize_recordIfChanged :
    (∀ (p o w t : Int) (cache : MarketCache) (history : List HistoryRow),
      (getLatestHistory history = none →
        synchronizeStateAndUpdateHistory p o w t cache history
          = (⟨t, p, o, w⟩, ⟨some p, some o, some w, some t⟩, history ++ [⟨t, p, o, w⟩]))
      ∧ (∀ prev, getLatestHistory history = some prev →
          (prev.sharePriceBeans = p →
            synchronizeStateAndUpdateHistory p o w t cache history
              = (prev, ⟨some p, some o, some w, some t⟩, history))
          ∧ (prev.sharePriceBeans ≠ p →
            synchronizeStateAndUpdateHistory p o w t cache history
              = (⟨t, p, o, w⟩, ⟨some p, some o, some w, some t⟩,
                  history ++ [⟨t, p, o, w⟩]))))
    ∧ (∀ (p o w t t2 : Int) (cache : MarketCache) (history : List HistoryRow),
      (∀ prev, getLatestHistory history = some prev → prev.sharePriceBeans ≠ p) →
      ((synchronizeStateAndUpdateHistory p o w t2
          (synchronizeStateAndUpdateHistory p o w t cache history).2.1
          (synchronizeStateAndUpdateHistory p o w t cache history).2.2).2.2).length
        = history.length + 1) := by
  have hbase : ∀ (p o w t : Int) (cache : MarketCache) (history : List HistoryRow),
      (getLatestHistory history = none →
        synchronizeStateAndUpdateHistory p o w t cache history
          = (⟨t, p, o, w⟩, ⟨some p, some o, some w, some t⟩, history ++ [⟨t, p, o, w⟩]))
      ∧ (∀ prev, getLatestHistory history = some prev →
          (prev.sharePriceBeans = p →
            synchronizeStateAndUpdateHistory p o w t cache history
              = (prev, ⟨some p, some o, some w, some t⟩, history))
          ∧ (prev.sharePriceBeans ≠ p →
            synchronizeStateAndUpdateHistory p o w t cache history
              = (⟨t, p, o, w⟩, ⟨some p, some o, some w, some t⟩,
                  history ++ [⟨t, p, o, w⟩]))) := by
    intro p o w t cache history
    constructor
    · intro hn
      unfold synchronizeStateAndUpdateHistory
      rw [hn]
    · intro prev hs
      constructor
      · intro heq
        unfold synchronizeStateAndUpdateHistory
        rw [hs]
        dsimp only
        rw [if_pos heq]
      · intro hne
        unfold synchronizeStateAndUpdateHistory
        rw [hs]
        dsimp only
        rw [if_neg hne]
  refine ⟨hbase, ?_⟩
  intro p o w t t2 cache history hfresh
  have happend : (synchronizeStateAndUpdateHistory p o w t cache history).2.2
      = history ++ [⟨t, p, o, w⟩] := by
    cases hl : getLatestHistory history with
    | none => rw [(hbase p o w t cache history).1 hl]
    | some prev =>
      rw [((hbase p o w t cache history).2 prev hl).2 (hfresh prev hl)]
  have hlatest : getLatestHistory ((synchronizeStateAndUpdateHistory p o w t cache history).2.2)
      = some ⟨t, p, o, w⟩ := by
    rw [happend]
    exact List.getLast?_concat history
  have hsecond := ((hbase p o w t2
      (synchronizeStateAndUpdateHistory p o w t cache history).2.1
      (synchronizeStateAndUpdateHistory p o w t cache history).2.2).2
      ⟨t, p, o, w⟩ hlatest).1 rfl
  rw [hsecond, happend]
  simp

/--
C7 witness: starting from an empty store, two synchronizations observing
price 40 leave exactly one snapshot in the store.
-/
theorem synchronize_recordIfChanged_witness :
    ((synchronizeStateAndUpdateHistory 40 1 2 5
        (synchronizeStateAndUpdateHistory 40 1 2 0 ⟨none, none, none, none⟩ []).2.1
        (synchronizeStateAndUpdateHistory 40 1 2 0 ⟨none, none, none, none⟩ []).2.2).2.2).length
      = 1 := by
  have h := synchronize_recordIfChanged.2 40 1 2 0 5 ⟨none, none, none, none⟩ []
    (fun prev hp => by simp [getLatestHistory] at hp)
  simpa using h

/- ### C8 — sample standard deviation with Bessel's correction -/

/--
C8: the standard deviation of every compiled market summary is exactly the
sample standard deviation (Bessel's correction, square root of the sum of
squared deviations from the mean divided by `entryCount - 1`) of the
window's prices when the window holds at least two entries, and 0 when it
holds fewer — the equation below packages both cases, together with the
fact that `entryCount` is the number of selected entries.
-/
theorem compileMarketSummary_stdDev_bessel
    (history : List HistoryRow) (periodStart periodEnd : Int) :
    (compileMarketSummary history periodStart periodEnd).entryCount
        = (selectPricesInPeriod history periodStart periodEnd).length
    ∧ (compileMarketSummary history periodStart periodEnd).stdDevSharePriceBeans
        = sampleStdDevSpec (selectPricesInPeriod history periodStart periodEnd) := by
  unfold compileMarketSummary sampleStdDevSpec
  by_cases h0 : (selectPricesInPeriod history periodStart periodEnd).length = 0
  · rw [if_pos h0, if_pos (by omega)]
    exact ⟨h0.symm, rfl⟩
  · rw [if_neg h0]
    refine ⟨rfl, ?_⟩
    dsimp only
    unfold calculateStdDev
    rw [List.length_map]
    by_cases h1 : (selectPricesInPeriod history periodStart periodEnd).length < 2
    · rw [if_pos h1, if_pos h1]
    · rw [if_neg h1, if_neg h1]
      dsimp only
      congr 1
      push_cast
      rw [List.map_map, List.map_map]
      congr 1
      refine congrArg (fun l : List ℝ => l.sum) (List.map_congr_left (fun x _ => ?_))
      simp only [Function.comp_apply]
      push_cast
      simp only [List.map_map, Function.comp_def, Rat.cast_intCast]

/- ### C10 — empty-window summary -/

/--
C10: compiling a summary over a window that selects no history entries
yields the defined summary with `entryCount = 0` and
`min = max = mean = sampleStdDev = 0` — no failure and no sentinel values.
-/
theorem compileMarketSummary_empty_window
    (history : List HistoryRow) (periodStart periodEnd : Int)
    (h : selectPricesInPeriod history periodStart periodEnd = []) :
    compileMarketSummary history periodStart periodEnd
      = ⟨periodStart, periodEnd, 0, 0, 0, 0, 0⟩ := by
  unfold compileMarketSummary
  rw [h]
  rfl

/--
C10 witness: the empty store over the window `[0, 100]` compiles to the
all-zero summary.
-/
theorem compileMarketSummary_empty_window_witness :
    compileMarketSummary [] 0 100 = ⟨0, 100, 0, 0, 0, 0, 0⟩ :=
  compileMarketSummary_empty_window [] 0 100 rfl
